import Mathlib

/-
  Verification of the wheel-odometry / EKF simulation core of the repository
  (file wheel_odometry_demo.py).  Real numbers model the floating point
  values of the source; numpy random draws are modelled as explicitly
  injected noise inputs.
-/

namespace WheelOdom

noncomputable section

open Real Matrix

abbrev Vec3 := Fin 3 → ℝ
abbrev Vec2 := Fin 2 → ℝ
abbrev Mat3 := Matrix (Fin 3) (Fin 3) ℝ
abbrev Mat2 := Matrix (Fin 2) (Fin 2) ℝ
abbrev Mat23 := Matrix (Fin 2) (Fin 3) ℝ

/-- Model of numpy np.arctan2 y x: the argument of the complex number with
real part x and imaginary part y, with range Ioc (-π) π.  -/
def atan2 (y x : ℝ) : ℝ := Complex.arg ⟨x, y⟩

/-- The angle normalization idiom used throughout the source:
np.arctan2 (np.sin t) (np.cos t).  -/
def wrapAngle (t : ℝ) : ℝ := atan2 (Real.sin t) (Real.cos t)

/-- A 2D robot pose, as the triple used by the source. -/
structure Pose where
  x : ℝ
  y : ℝ
  theta : ℝ

/-- update_odometry (wheel_odometry_demo.py lines 258-268): differential
drive dead reckoning from the previous estimated pose.  The heading is NOT
normalized here. -/
def updateOdometry (prev : Pose) (linear_vel angular_vel dt : ℝ) : Pose :=
  ⟨prev.x + linear_vel * dt * Real.cos prev.theta,
   prev.y + linear_vel * dt * Real.sin prev.theta,
   prev.theta + angular_vel * dt⟩

/-- Mean propagation of ekf_predict (lines 714-723): unicycle equations
about the previous heading, with the new heading normalized. -/
def ekfPredictMean (x : Vec3) (linear_vel angular_vel dt : ℝ) : Vec3 :=
  ![x 0 + linear_vel * dt * Real.cos (x 2),
    x 1 + linear_vel * dt * Real.sin (x 2),
    wrapAngle (x 2 + angular_vel * dt)]

/-- State transition Jacobian F of ekf_predict (lines 726-730). -/
def jacobianF (linear_vel dt theta : ℝ) : Mat3 :=
  !![1, 0, -linear_vel * dt * Real.sin theta;
     0, 1,  linear_vel * dt * Real.cos theta;
     0, 0,  1]

/-- Process noise Q of initialize_ekf (line 698):
diag(linear_std^2, linear_std^2, angular_std^2). -/
def Qmat (linear_noise_std angular_noise_std : ℝ) : Mat3 :=
  Matrix.diagonal ![linear_noise_std ^ 2, linear_noise_std ^ 2, angular_noise_std ^ 2]

/-- Measurement noise R of update_measurement_noise (line 710):
diag(range_std^2 * 2, bearing_std^2 * 2). -/
def Rmat (landmark_noise_std landmark_angle_noise_std : ℝ) : Mat2 :=
  Matrix.diagonal ![landmark_noise_std ^ 2 * 2, landmark_angle_noise_std ^ 2 * 2]

/-- ekf_predict (lines 712-738) acting on the pair (mean, covariance):
mean by the unicycle model, covariance by P := F * P * Fᵀ + Q * dt * 0.5. -/
def ekfPredict (st : Vec3 × Mat3) (linear_vel angular_vel dt sv sw : ℝ) :
    Vec3 × Mat3 :=
  let F := jacobianF linear_vel dt (st.1 2)
  (ekfPredictMean st.1 linear_vel angular_vel dt,
   F * st.2 * Fᵀ + (dt * 0.5) • Qmat sv sw)

/- ## EKF measurement update (ekf_update, lines 740-798) -/

/-- Predicted range from the current mean to a landmark (lines 753-755). -/
def predRange (lm : ℝ × ℝ) (mu : Vec3) : ℝ :=
  Real.sqrt ((lm.1 - mu 0) ^ 2 + (lm.2 - mu 1) ^ 2)

/-- Measurement Jacobian H (lines 763-766). -/
def measJacobian (lm : ℝ × ℝ) (mu : Vec3) : Mat23 :=
  let dx := lm.1 - mu 0
  let dy := lm.2 - mu 1
  let r := predRange lm mu
  !![-dx / r, -dy / r, 0;
     dy / r ^ 2, -dx / r ^ 2, -1]

/-- Innovation covariance S = H * P * Hᵀ + R (line 769). -/
def innovCov (lm : ℝ × ℝ) (mu : Vec3) (P : Mat3) (R : Mat2) : Mat2 :=
  measJacobian lm mu * P * (measJacobian lm mu)ᵀ + R

/-- Model of np.linalg.cond (2-norm): ratio of the largest to the smallest
singular value, computed from the eigenvalues of Sᵀ * S. -/
def cond2 (S : Mat2) : ℝ :=
  let G := Sᵀ * S
  let t := G.trace
  let d := G.det
  Real.sqrt ((t + Real.sqrt (t ^ 2 - 4 * d)) / 2) /
    Real.sqrt ((t - Real.sqrt (t ^ 2 - 4 * d)) / 2)

/-- Covariance symmetrization (P + Pᵀ) / 2 (line 791). -/
def symmetrize (A : Mat3) : Mat3 := ((1 : ℝ) / 2) • (A + Aᵀ)

/-- The minimum eigenvalue used by the repair step (line 792):
np.min of the eigenvalues of P.  P is symmetric at this call site, so its
eigenvalues are exactly its real spectrum and np.real is the identity;
we model the minimum as the infimum of the real spectrum. -/
def minEig (A : Mat3) : ℝ := sInf (spectrum ℝ A)

/-- Eigenvalue flooring (lines 792-794): if the minimum eigenvalue is
below 1e-6, add (1e-6 - min_eig) * I. -/
def floorEig (A : Mat3) : Mat3 :=
  if minEig A < 1e-6 then A + (1e-6 - minEig A) • (1 : Mat3) else A

/-- The body of a successful landmark update (lines 774-794): Kalman gain,
wrapped innovation, mean update with wrapped heading, covariance update
followed by symmetrization and eigenvalue flooring. -/
def ekfUpdateApply (R : Mat2) (st : Vec3 × Mat3) (mlm : (ℝ × ℝ) × (ℝ × ℝ)) :
    Vec3 × Mat3 :=
  let m := mlm.1
  let lm := mlm.2
  let mu := st.1
  let P := st.2
  let dx := lm.1 - mu 0
  let dy := lm.2 - mu 1
  let r := predRange lm mu
  let predBearing := wrapAngle (atan2 dy dx - mu 2)
  let H := measJacobian lm mu
  let S := innovCov lm mu P R
  let K := P * Hᵀ * S⁻¹
  let innov : Vec2 := ![m.1 - r, wrapAngle (m.2 - predBearing)]
  let mu1 := mu + K.mulVec innov
  let mu2 : Vec3 := fun i => if i = 2 then wrapAngle (mu1 2) else mu1 i
  let P1 := (1 - K * H) * P
  (mu2, floorEig (symmetrize P1))

/-- One iteration of the landmark loop of ekf_update (lines 745-798),
acting on the (mean, covariance) pair.  The two guarded skips are the
singularity check on the predicted range and the condition number check
on the innovation covariance. -/
def ekfUpdateStep (R : Mat2) (st : Vec3 × Mat3) (mlm : (ℝ × ℝ) × (ℝ × ℝ)) :
    Vec3 × Mat3 :=
  if predRange mlm.2 st.1 > 0.1 then
    if cond2 (innovCov mlm.2 st.1 st.2 R) < 1e12 then
      ekfUpdateApply R st mlm
    else st
  else st

/-- ekf_update (lines 740-798): a left fold of ekfUpdateStep over the
measurements paired with the landmarks in ascending index order (the
source enumerates the measurement list and breaks past the landmark
count, which is exactly the zip truncation). -/
def ekfUpdate (R : Mat2) (landmarks : List (ℝ × ℝ)) (ms : List (ℝ × ℝ))
    (st : Vec3 × Mat3) : Vec3 × Mat3 :=
  (ms.zip landmarks).foldl (ekfUpdateStep R) st

/- ## Sensor models -/

/-- add_sensor_noise (lines 232-237), with the two Gaussian draws supplied
explicitly. -/
def addSensorNoise (true_linear_vel true_angular_vel nv nw : ℝ) : ℝ × ℝ :=
  (true_linear_vel + nv, true_angular_vel + nw)

/-- calculate_landmark_measurements (lines 239-256): one (range, bearing)
pair per landmark, in landmark order; the per-landmark Gaussian draws are
supplied as the explicit stream noise.  The bearing is NOT normalized. -/
def calculateLandmarkMeasurements (robot : Pose) (landmarks : List (ℝ × ℝ))
    (noise : ℕ → ℝ × ℝ) : List (ℝ × ℝ) :=
  landmarks.enum.map fun p =>
    let dx := p.2.1 - robot.x
    let dy := p.2.2 - robot.y
    (Real.sqrt (dx ^ 2 + dy ^ 2) + (noise p.1).1,
     atan2 dy dx - robot.theta + (noise p.1).2)

/- ## Ground truth trajectory (generate_rectangle_trajectory, lines 183-230) -/

/-- Real-valued remainder t mod m as numpy computes it for m > 0. -/
def realMod (t m : ℝ) : ℝ := t - m * ⌊t / m⌋

/-- The pose assigned to time t by generate_rectangle_trajectory.  The
segment times are width/velocity = 20, height/velocity = 16, and their
cumulative sums 20, 36, 56, 72; the loop with break is the nested
conditional below since t mod 72 always lies in [0, 72). -/
def rectPoseAt (t : ℝ) : Pose :=
  if realMod t 72 < 20 then ⟨realMod t 72 / 20 * 10, 0, 0⟩
  else if realMod t 72 < 36 then ⟨10, (realMod t 72 - 20) / 16 * 8, π / 2⟩
  else if realMod t 72 < 56 then ⟨10 - (realMod t 72 - 36) / 20 * 10, 8, π⟩
  else ⟨0, 8 - (realMod t 72 - 56) / 16 * 8, -(π / 2)⟩

/-- np.arange 0 total_time dt: ceil (total_time / dt) samples k * dt. -/
def timesList (total_time dt : ℝ) : List ℝ :=
  (List.range ⌈total_time / dt⌉₊).map fun k : ℕ => (k : ℝ) * dt

/-- generate_rectangle_trajectory over the sample times. -/
def generateRectangleTrajectory (total_time dt : ℝ) : List Pose :=
  (timesList total_time dt).map rectPoseAt

/-- generate_landmarks (lines 121-152): the fixed 13 position catalog
truncated to the configured count. -/
def landmarkCatalog : List (ℝ × ℝ) :=
  [(2, 2), (8, 2), (8, 6), (2, 6), (5, 4), (1, 1), (9, 1), (9, 7), (1, 7),
   (3, 3), (7, 3), (7, 5), (3, 5)]

/-- generate_landmarks for a configured count. -/
def generateLandmarks (landmark_count : ℕ) : List (ℝ × ℝ) :=
  landmarkCatalog.take landmark_count

/- ## Simulation state and step runner -/

/-- np.degrees. -/
def degrees (t : ℝ) : ℝ := t * (180 / π)

/-- The mutable state of WheelOdometryDemo that the simulation core reads
and writes (plots and widgets excluded). -/
structure SimState where
  dt : ℝ
  times : List ℝ
  sigmaLinear : ℝ
  sigmaAngular : ℝ
  sigmaRange : ℝ
  sigmaBearing : ℝ
  landmarks : List (ℝ × ℝ)
  useLandmarks : Bool
  currentStep : ℕ
  trueTrajectory : List Pose
  estimatedTrajectory : List Pose
  ekfTrajectory : List Vec3
  ekfX : Vec3
  ekfP : Mat3
  linearVelocities : List ℝ
  angularVelocities : List ℝ
  trueLinearVelocities : List ℝ
  trueAngularVelocities : List ℝ
  positionErrors : List ℝ
  orientationErrors : List ℝ
  ekfPositionErrors : List ℝ
  ekfOrientationErrors : List ℝ

/-- run_single_step (lines 591-659).  The two Gaussian velocity draws and
the per-landmark measurement draws of this tick are supplied explicitly. -/
def runSingleStep (nz : ℝ × ℝ) (lmNz : ℕ → ℝ × ℝ) (s : SimState) : SimState :=
  if s.times.length - 1 ≤ s.currentStep then s
  else if 0 < s.currentStep then
    let truePos := s.trueTrajectory.getD s.currentStep ⟨0, 0, 0⟩
    let prevPos := s.trueTrajectory.getD (s.currentStep - 1) ⟨0, 0, 0⟩
    let trueLinearVel :=
      Real.sqrt ((truePos.x - prevPos.x) ^ 2 + (truePos.y - prevPos.y) ^ 2) / s.dt
    let trueAngularVel := (truePos.theta - prevPos.theta) / s.dt
    let meas := addSensorNoise trueLinearVel trueAngularVel nz.1 nz.2
    let pred := ekfPredict (s.ekfX, s.ekfP) meas.1 meas.2 s.dt s.sigmaLinear s.sigmaAngular
    let upd :=
      if s.useLandmarks then
        ekfUpdate (Rmat s.sigmaRange s.sigmaBearing) s.landmarks
          (calculateLandmarkMeasurements truePos s.landmarks lmNz) pred
      else pred
    let prevEst := s.estimatedTrajectory.getD (s.currentStep - 1) ⟨0, 0, 0⟩
    let newPose := updateOdometry prevEst meas.1 meas.2 s.dt
    let posErr :=
      Real.sqrt ((truePos.x - newPose.x) ^ 2 + (truePos.y - newPose.y) ^ 2)
    let oriErr := degrees |wrapAngle (truePos.theta - newPose.theta)|
    let ekfPosErr :=
      Real.sqrt ((truePos.x - upd.1 0) ^ 2 + (truePos.y - upd.1 1) ^ 2)
    let ekfOriErr := degrees |wrapAngle (truePos.theta - upd.1 2)|
    { s with
      trueLinearVelocities := s.trueLinearVelocities ++ [trueLinearVel]
      trueAngularVelocities := s.trueAngularVelocities ++ [trueAngularVel]
      linearVelocities := s.linearVelocities ++ [meas.1]
      angularVelocities := s.angularVelocities ++ [meas.2]
      ekfX := upd.1
      ekfP := upd.2
      ekfTrajectory := s.ekfTrajectory ++ [upd.1]
      estimatedTrajectory := s.estimatedTrajectory.set s.currentStep newPose
      positionErrors := s.positionErrors ++ [posErr]
      orientationErrors := s.orientationErrors ++ [oriErr]
      ekfPositionErrors := s.ekfPositionErrors ++ [ekfPosErr]
      ekfOrientationErrors := s.ekfOrientationErrors ++ [ekfOriErr]
      currentStep := s.currentStep + 1 }
  else { s with currentStep := s.currentStep + 1 }

/-- The configuration parameters that reset_simulation reads. -/
structure Config where
  totalTime : ℝ
  dt : ℝ
  landmarkCount : ℕ
  sigmaLinear : ℝ
  sigmaAngular : ℝ
  sigmaRange : ℝ
  sigmaBearing : ℝ
  useLandmarks : Bool

/-- reset_simulation (lines 526-549) together with initialize_trajectories
and initialize_ekf: landmark and trajectory regeneration, zeroed estimated
trajectory with the true initial pose at index 0, empty histories, EKF
mean zero and covariance diag(0.1, 0.1, 0.01), step index 0. -/
def resetState (c : Config) : SimState :=
  let times := timesList c.totalTime c.dt
  let trueTraj := generateRectangleTrajectory c.totalTime c.dt
  { dt := c.dt
    times := times
    sigmaLinear := c.sigmaLinear
    sigmaAngular := c.sigmaAngular
    sigmaRange := c.sigmaRange
    sigmaBearing := c.sigmaBearing
    landmarks := generateLandmarks c.landmarkCount
    useLandmarks := c.useLandmarks
    currentStep := 0
    trueTrajectory := trueTraj
    estimatedTrajectory :=
      (List.replicate trueTraj.length (⟨0, 0, 0⟩ : Pose)).set 0
        (trueTraj.getD 0 ⟨0, 0, 0⟩)
    ekfTrajectory := []
    ekfX := ![0, 0, 0]
    ekfP := Matrix.diagonal ![0.1, 0.1, 0.01]
    linearVelocities := []
    angularVelocities := []
    trueLinearVelocities := []
    trueAngularVelocities := []
    positionErrors := []
    orientationErrors := []
    ekfPositionErrors := []
    ekfOrientationErrors := [] }

/-- N repeated step calls, consuming the injected noise streams in order. -/
def stepN (nzs : ℕ → ℝ × ℝ) (lmNzs : ℕ → ℕ → ℝ × ℝ) : ℕ → SimState → SimState
  | 0, s => s
  | n + 1, s => runSingleStep (nzs n) (lmNzs n) (stepN nzs lmNzs n s)

/-- The recorded error history of a state. -/
def errorHistory (s : SimState) : List ℝ × List ℝ × List ℝ × List ℝ :=
  (s.positionErrors, s.orientationErrors, s.ekfPositionErrors, s.ekfOrientationErrors)

/- ## Basic facts about the wrapping function -/

theorem mk_eq_cos_add_sin (t : ℝ) :
    (⟨Real.cos t, Real.sin t⟩ : ℂ) = Complex.cos t + Complex.sin t * Complex.I := by
  rw [Complex.mk_eq_add_mul_I, Complex.ofReal_cos, Complex.ofReal_sin]

theorem wrapAngle_mem_Ioc (t : ℝ) : wrapAngle t ∈ Set.Ioc (-π) π :=
  Complex.arg_mem_Ioc _

theorem wrapAngle_sub (t : ℝ) :
    wrapAngle t - t = 2 * π * ⌊(π - t) / (2 * π)⌋ := by
  unfold wrapAngle atan2
  rw [mk_eq_cos_add_sin]
  exact Complex.arg_cos_add_sin_mul_I_sub t

theorem wrapAngle_eq_add_int (t : ℝ) :
    ∃ k : ℤ, wrapAngle t = t + 2 * π * k :=
  ⟨⌊(π - t) / (2 * π)⌋, by have h := wrapAngle_sub t; linarith⟩

theorem cos_wrapAngle (t : ℝ) : Real.cos (wrapAngle t) = Real.cos t := by
  obtain ⟨k, hk⟩ := wrapAngle_eq_add_int t
  rw [hk]
  have : t + 2 * π * k = t + k * (2 * π) := by ring
  rw [this, Real.cos_add_int_mul_two_pi]

theorem sin_wrapAngle (t : ℝ) : Real.sin (wrapAngle t) = Real.sin t := by
  obtain ⟨k, hk⟩ := wrapAngle_eq_add_int t
  rw [hk]
  have : t + 2 * π * k = t + k * (2 * π) := by ring
  rw [this, Real.sin_add_int_mul_two_pi]

/- ## Claim theorems: step runner boundary behaviour -/

/-- Claim C8: once the precomputed trajectory is exhausted, a further step
call is a complete no-op: the state, including the step index and every
history, is returned unchanged, and no error is raised. -/
theorem stepOverrun_noop (nz : ℝ × ℝ) (lmNz : ℕ → ℝ × ℝ) (s : SimState)
    (h : s.times.length - 1 ≤ s.currentStep) :
    runSingleStep nz lmNz s = s := by
  unfold runSingleStep
  rw [if_pos h]

/-- A concrete exhausted state: a one-sample time grid with step index 0. -/
def overrunState : SimState where
  dt := 0.1
  times := [0]
  sigmaLinear := 0.1
  sigmaAngular := 0.05
  sigmaRange := 0.1
  sigmaBearing := 0.02
  landmarks := []
  useLandmarks := false
  currentStep := 0
  trueTrajectory := [⟨0, 0, 0⟩]
  estimatedTrajectory := [⟨0, 0, 0⟩]
  ekfTrajectory := []
  ekfX := ![0, 0, 0]
  ekfP := 1
  linearVelocities := []
  angularVelocities := []
  trueLinearVelocities := []
  trueAngularVelocities := []
  positionErrors := []
  orientationErrors := []
  ekfPositionErrors := []
  ekfOrientationErrors := []

theorem stepOverrun_noop_witness :
    runSingleStep (0, 0) (fun _ => (0, 0)) overrunState = overrunState :=
  stepOverrun_noop (0, 0) (fun _ => (0, 0)) overrunState (by simp [overrunState])

/-- Claim C10: the very first step after a reset only increments the step
index from 0 to 1; the EKF state, both trajectories, and all velocity and
error histories are untouched. -/
theorem firstStep_only_increments (nz : ℝ × ℝ) (lmNz : ℕ → ℝ × ℝ)
    (s : SimState) (h0 : s.currentStep = 0) (h2 : 2 ≤ s.times.length) :
    runSingleStep nz lmNz s = { s with currentStep := 1 } := by
  have hA : ¬(s.times.length - 1 ≤ s.currentStep) := by omega
  have hB : ¬(0 < s.currentStep) := by omega
  unfold runSingleStep
  rw [if_neg hA, if_neg hB, h0]

/-- A concrete freshly reset state with two time samples. -/
def freshState : SimState where
  dt := 0.1
  times := [0, 0.1]
  sigmaLinear := 0.1
  sigmaAngular := 0.05
  sigmaRange := 0.1
  sigmaBearing := 0.02
  landmarks := [(2, 2)]
  useLandmarks := true
  currentStep := 0
  trueTrajectory := [⟨0, 0, 0⟩, ⟨0.05, 0, 0⟩]
  estimatedTrajectory := [⟨0, 0, 0⟩, ⟨0, 0, 0⟩]
  ekfTrajectory := []
  ekfX := ![0, 0, 0]
  ekfP := Matrix.diagonal ![0.1, 0.1, 0.01]
  linearVelocities := []
  angularVelocities := []
  trueLinearVelocities := []
  trueAngularVelocities := []
  positionErrors := []
  orientationErrors := []
  ekfPositionErrors := []
  ekfOrientationErrors := []

theorem firstStep_only_increments_witness :
    runSingleStep (0, 0) (fun _ => (0, 0)) freshState =
      { freshState with currentStep := 1 } :=
  firstStep_only_increments (0, 0) (fun _ => (0, 0)) freshState
    (by simp [freshState]) (by simp [freshState])

/-- Claim C9: two runs from a reset with the same configuration, the same
injected noise streams and the same number of steps record identical error
histories.  The pseudo random source is modelled as the explicitly
injected streams, as required by the specification. -/
theorem determinism_two_runs (c₁ c₂ : Config) (nz₁ nz₂ : ℕ → ℝ × ℝ)
    (ln₁ ln₂ : ℕ → ℕ → ℝ × ℝ) (N₁ N₂ : ℕ) (hc : c₁ = c₂) (hn : nz₁ = nz₂)
    (hl : ln₁ = ln₂) (hN : N₁ = N₂) :
    errorHistory (stepN nz₁ ln₁ N₁ (resetState c₁)) =
      errorHistory (stepN nz₂ ln₂ N₂ (resetState c₂)) := by
  subst hc hn hl hN
  rfl

theorem determinism_two_runs_witness :
    errorHistory (stepN (fun _ => (0, 0)) (fun _ _ => (0, 0)) 3
        (resetState ⟨10, 0.1, 5, 0.1, 0.05, 0.1, 0.02, true⟩)) =
      errorHistory (stepN (fun _ => (0, 0)) (fun _ _ => (0, 0)) 3
        (resetState ⟨10, 0.1, 5, 0.1, 0.05, 0.1, 0.02, true⟩)) :=
  determinism_two_runs _ _ _ _ _ _ _ _ rfl rfl rfl rfl

/- ## Claim theorem: the EKF predict step (C3) -/

/-- Claim C3: the predict step propagates the mean by the unicycle
equations linearized about the previous heading, wraps the new heading
into Ioc (-π) π, uses the 3 by 3 Jacobian with unit diagonal whose only
nonzero off-diagonal entries are the two heading derivatives, and updates
the covariance as F * P * Fᵀ + Q * dt * 0.5 with Q the diagonal of the
squared noise deviations. -/
theorem ekfPredict_spec (mu : Vec3) (P : Mat3) (v w dt sv sw : ℝ) :
    (ekfPredict (mu, P) v w dt sv sw).1 0 = mu 0 + v * dt * Real.cos (mu 2) ∧
    (ekfPredict (mu, P) v w dt sv sw).1 1 = mu 1 + v * dt * Real.sin (mu 2) ∧
    (ekfPredict (mu, P) v w dt sv sw).1 2 = wrapAngle (mu 2 + w * dt) ∧
    (ekfPredict (mu, P) v w dt sv sw).1 2 ∈ Set.Ioc (-π) π ∧
    (∀ i j : Fin 3, jacobianF v dt (mu 2) i j =
      if i = j then 1
      else if i = 0 ∧ j = 2 then -(v * dt * Real.sin (mu 2))
      else if i = 1 ∧ j = 2 then v * dt * Real.cos (mu 2)
      else 0) ∧
    (ekfPredict (mu, P) v w dt sv sw).2 =
      jacobianF v dt (mu 2) * P * (jacobianF v dt (mu 2))ᵀ +
        (dt * 0.5) • Qmat sv sw ∧
    Qmat sv sw = Matrix.diagonal ![sv ^ 2, sv ^ 2, sw ^ 2] := by
  refine ⟨?_, ?_, ?_, ?_, ?_, rfl, rfl⟩
  · simp [ekfPredict, ekfPredictMean]
  · simp [ekfPredict, ekfPredictMean]
  · simp [ekfPredict, ekfPredictMean]
  · have h : (ekfPredict (mu, P) v w dt sv sw).1 2 = wrapAngle (mu 2 + w * dt) := by
      simp [ekfPredict, ekfPredictMean]
    rw [h]
    exact wrapAngle_mem_Ioc _
  · intro i j
    fin_cases i <;> fin_cases j <;>
      simp [jacobianF, Matrix.vecHead, Matrix.vecTail]

/- ## Claim C1: heading normalization -/

theorem ekfUpdateStep_theta_mem (R : Mat2) (st : Vec3 × Mat3)
    (p : (ℝ × ℝ) × (ℝ × ℝ)) (h : st.1 2 ∈ Set.Ioc (-π) π) :
    (ekfUpdateStep R st p).1 2 ∈ Set.Ioc (-π) π := by
  unfold ekfUpdateStep
  split_ifs with h1 h2
  · simpa [ekfUpdateApply] using wrapAngle_mem_Ioc _
  · exact h
  · exact h

theorem ekfUpdate_theta_mem (R : Mat2) (lms ms : List (ℝ × ℝ))
    (st : Vec3 × Mat3) (h : st.1 2 ∈ Set.Ioc (-π) π) :
    (ekfUpdate R lms ms st).1 2 ∈ Set.Ioc (-π) π := by
  unfold ekfUpdate
  generalize ms.zip lms = l
  induction l generalizing st with
  | nil => exact h
  | cons a l ih =>
      rw [List.foldl_cons]
      exact ih _ (ekfUpdateStep_theta_mem R st a h)

/-- Claim C1 counterexample: the baseline integrator does not wrap the
heading.  One odometry update from the reachable initial pose (0,0,0)
with measured angular velocity 40 and dt = 0.1 yields heading 4, which is
outside Ioc (-π) π. -/
theorem baseline_heading_escapes :
    (updateOdometry ⟨0, 0, 0⟩ 0 40 0.1).theta = 4 ∧
    (4 : ℝ) ∉ Set.Ioc (-π) π := by
  constructor
  · simp [updateOdometry]
    norm_num
  · intro hmem
    have h4 : (4 : ℝ) ≤ π := hmem.2
    have := Real.pi_lt_d2
    linarith

/-- Claim C1 (amended): the EKF mean heading is wrapped into Ioc (-π) π by
every predict and by every per-landmark update, and the ground-truth
headings all lie in Ioc (-π) π; the baseline dead-reckoning integrator,
however, never wraps its heading. -/
theorem heading_wrap_invariant :
    (∀ (x : Vec3) (v w dt : ℝ), ekfPredictMean x v w dt 2 ∈ Set.Ioc (-π) π) ∧
    (∀ t : ℝ, (rectPoseAt t).theta ∈ Set.Ioc (-π) π) ∧
    (∀ (R : Mat2) (lms ms : List (ℝ × ℝ)) (st : Vec3 × Mat3),
      st.1 2 ∈ Set.Ioc (-π) π →
      (ekfUpdate R lms ms st).1 2 ∈ Set.Ioc (-π) π) ∧
    (∀ (prev : Pose) (v w dt : ℝ),
      (updateOdometry prev v w dt).theta = prev.theta + w * dt) := by
  refine ⟨?_, ?_, ekfUpdate_theta_mem, fun _ _ _ _ => rfl⟩
  · intro x v w dt
    simpa [ekfPredictMean] using wrapAngle_mem_Ioc (x 2 + w * dt)
  · intro t
    have hpi := Real.pi_pos
    unfold rectPoseAt
    split_ifs <;> simp [Set.mem_Ioc] <;>
      first
      | linarith
      | exact ⟨by linarith, by linarith⟩

theorem heading_wrap_invariant_witness :
    (ekfUpdate (Rmat 0.1 0.02) [] [] (![0, 0, 0], 1)).1 2 ∈ Set.Ioc (-π) π := by
  have hpi := Real.pi_pos
  exact heading_wrap_invariant.2.2.1 (Rmat 0.1 0.02) [] [] (![0, 0, 0], 1)
    (by simp [Set.mem_Ioc]; constructor <;> linarith)

/- ## Claim C5: the landmark sensor model -/

/-- Claim C5 counterexample: the sensor model does not wrap the bearing.
From the valid pose (0, 0, -3) a landmark at (0, 1) under zero noise is
reported with bearing π/2 + 3, which is outside Ioc (-π) π. -/
theorem sensor_bearing_not_wrapped :
    calculateLandmarkMeasurements ⟨0, 0, -3⟩ [(0, 1)] (fun _ => (0, 0)) =
      [(1, π / 2 + 3)] ∧
    π / 2 + 3 ∉ Set.Ioc (-π) π ∧
    (-3 : ℝ) ∈ Set.Ioc (-π) π := by
  refine ⟨?_, ?_, ?_⟩
  · unfold calculateLandmarkMeasurements
    simp only [List.enum, List.enumFrom, List.map]
    have h1 : Real.sqrt (((0 : ℝ) - 0) ^ 2 + ((1 : ℝ) - 0) ^ 2) + 0 = 1 := by
      norm_num
    have h2 : atan2 ((1 : ℝ) - 0) ((0 : ℝ) - 0) - (-3) + 0 = π / 2 + 3 := by
      have : atan2 ((1 : ℝ) - 0) ((0 : ℝ) - 0) = π / 2 := by
        unfold atan2
        norm_num
        rw [show (⟨0, 1⟩ : ℂ) = Complex.I from rfl, Complex.arg_I]
      rw [this]
      ring
    rw [h1, h2]
  · intro hmem
    have h := hmem.2
    have := Real.pi_le_four
    linarith
  · have h3 := Real.pi_gt_three
    constructor <;> linarith

/-- Claim C5 (amended): the sensor model returns one measurement per
landmark in landmark order, with range the Euclidean distance plus noise
and bearing atan2 (dy) (dx) - θ plus noise, the bearing NOT being wrapped;
in scenario C (landmark (8,2), pose (0,0,0), zero noise) the measurement
is (√68, atan2 2 8). -/
theorem landmarkMeasurements_spec :
    (∀ (robot : Pose) (lms : List (ℝ × ℝ)) (noise : ℕ → ℝ × ℝ),
      (calculateLandmarkMeasurements robot lms noise).length = lms.length) ∧
    (∀ (robot : Pose) (lms : List (ℝ × ℝ)) (noise : ℕ → ℝ × ℝ) (k : ℕ),
      k < lms.length →
      (calculateLandmarkMeasurements robot lms noise).get? k =
        (lms.get? k).map fun lm =>
          (Real.sqrt ((lm.1 - robot.x) ^ 2 + (lm.2 - robot.y) ^ 2) + (noise k).1,
           atan2 (lm.2 - robot.y) (lm.1 - robot.x) - robot.theta + (noise k).2)) ∧
    calculateLandmarkMeasurements ⟨0, 0, 0⟩ [(8, 2)] (fun _ => (0, 0)) =
      [(Real.sqrt 68, atan2 2 8)] := by
  refine ⟨?_, ?_, ?_⟩
  · intro robot lms noise
    simp [calculateLandmarkMeasurements]
  · intro robot lms noise k _
    unfold calculateLandmarkMeasurements
    rw [List.get?_map, List.get?_enum, Option.map_map]
    rfl
  · unfold calculateLandmarkMeasurements
    simp only [List.enum, List.enumFrom, List.map]
    have h1 : Real.sqrt (((8 : ℝ) - 0) ^ 2 + ((2 : ℝ) - 0) ^ 2) + 0 =
        Real.sqrt 68 := by norm_num
    have h2 : atan2 ((2 : ℝ) - 0) ((8 : ℝ) - 0) - 0 + 0 = atan2 2 8 := by
      norm_num
    rw [h1, h2]

theorem landmarkMeasurements_spec_witness :
    (calculateLandmarkMeasurements ⟨0, 0, 0⟩ [(2, 2)] (fun _ => (0, 0))).get? 0 =
      (([((2 : ℝ), (2 : ℝ))].get? 0).map fun lm =>
        (Real.sqrt ((lm.1 - 0) ^ 2 + (lm.2 - 0) ^ 2) + 0,
         atan2 (lm.2 - 0) (lm.1 - 0) - 0 + 0)) :=
  landmarkMeasurements_spec.2.1 ⟨0, 0, 0⟩ [(2, 2)] (fun _ => (0, 0)) 0
    (by norm_num)

/- ## Claim C6: predict-only EKF versus the baseline integrator -/

/-- The baseline dead-reckoning trajectory driven by a stream of measured
velocity commands. -/
def baselineIter (cmds : ℕ → ℝ × ℝ) (dt : ℝ) (p0 : Pose) : ℕ → Pose
  | 0 => p0
  | n + 1 =>
      updateOdometry (baselineIter cmds dt p0 n) (cmds n).1 (cmds n).2 dt

/-- The predict-only EKF mean trajectory driven by the same stream. -/
def ekfMeanIter (cmds : ℕ → ℝ × ℝ) (dt : ℝ) (x0 : Vec3) : ℕ → Vec3
  | 0 => x0
  | n + 1 =>
      ekfPredictMean (ekfMeanIter cmds dt x0 n) (cmds n).1 (cmds n).2 dt

/-- Claim C6 counterexample: one identical command (v = 0, ω = 40,
dt = 0.1) from the shared initial pose already makes the two heading
estimates numerically different: the baseline reports 4 while the EKF
reports the wrapped value. -/
theorem predictOnly_theta_differs :
    ekfMeanIter (fun _ => (0, 40)) 0.1 ![0, 0, 0] 1 2 ≠
      (baselineIter (fun _ => (0, 40)) 0.1 ⟨0, 0, 0⟩ 1).theta := by
  have hb : (baselineIter (fun _ => (0, 40)) 0.1 ⟨0, 0, 0⟩ 1).theta = 4 := by
    show (updateOdometry ⟨0, 0, 0⟩ 0 40 0.1).theta = 4
    simp [updateOdometry]
    norm_num
  have he : ekfMeanIter (fun _ => (0, 40)) 0.1 ![0, 0, 0] 1 2 =
      wrapAngle (0 + 40 * 0.1) := by
    show ekfPredictMean ![0, 0, 0] 0 40 0.1 2 = _
    simp [ekfPredictMean]
  rw [hb, he]
  intro hcontra
  have h1 : wrapAngle (0 + 40 * 0.1) ≤ π := (wrapAngle_mem_Ioc _).2
  have h2 := Real.pi_lt_d2
  linarith

/-- Claim C6 (amended): driven by the same measured velocity stream from
the same initial pose, the predict-only EKF mean and the baseline
integrator agree exactly on x and y at every step, and their headings
agree up to the 2π wrap (equal cosine and sine, differing by an integer
multiple of 2π); the headings are not numerically equal in general. -/
theorem predictOnly_refines_baseline (cmds : ℕ → ℝ × ℝ) (dt : ℝ) (p0 : Pose)
    (n : ℕ) :
    ekfMeanIter cmds dt ![p0.x, p0.y, p0.theta] n 0 =
      (baselineIter cmds dt p0 n).x ∧
    ekfMeanIter cmds dt ![p0.x, p0.y, p0.theta] n 1 =
      (baselineIter cmds dt p0 n).y ∧
    Real.cos (ekfMeanIter cmds dt ![p0.x, p0.y, p0.theta] n 2) =
      Real.cos ((baselineIter cmds dt p0 n).theta) ∧
    Real.sin (ekfMeanIter cmds dt ![p0.x, p0.y, p0.theta] n 2) =
      Real.sin ((baselineIter cmds dt p0 n).theta) ∧
    ∃ k : ℤ, ekfMeanIter cmds dt ![p0.x, p0.y, p0.theta] n 2 =
      (baselineIter cmds dt p0 n).theta + 2 * π * k := by
  induction n with
  | zero =>
      refine ⟨by simp [ekfMeanIter, baselineIter], by simp [ekfMeanIter, baselineIter],
        by simp [ekfMeanIter, baselineIter], by simp [ekfMeanIter, baselineIter],
        ⟨0, by simp [ekfMeanIter, baselineIter]⟩⟩
  | succ n ih =>
      obtain ⟨hx, hy, hcos, hsin, k, hk⟩ := ih
      have hbx : (baselineIter cmds dt p0 (n + 1)).x =
          (baselineIter cmds dt p0 n).x +
            (cmds n).1 * dt * Real.cos ((baselineIter cmds dt p0 n).theta) := rfl
      have hby : (baselineIter cmds dt p0 (n + 1)).y =
          (baselineIter cmds dt p0 n).y +
            (cmds n).1 * dt * Real.sin ((baselineIter cmds dt p0 n).theta) := rfl
      have hbt : (baselineIter cmds dt p0 (n + 1)).theta =
          (baselineIter cmds dt p0 n).theta + (cmds n).2 * dt := rfl
      have hex : ekfMeanIter cmds dt ![p0.x, p0.y, p0.theta] (n + 1) 0 =
          ekfMeanIter cmds dt ![p0.x, p0.y, p0.theta] n 0 +
            (cmds n).1 * dt *
              Real.cos (ekfMeanIter cmds dt ![p0.x, p0.y, p0.theta] n 2) := by
        show ekfPredictMean _ _ _ _ 0 = _
        simp [ekfPredictMean]
      have hey : ekfMeanIter cmds dt ![p0.x, p0.y, p0.theta] (n + 1) 1 =
          ekfMeanIter cmds dt ![p0.x, p0.y, p0.theta] n 1 +
            (cmds n).1 * dt *
              Real.sin (ekfMeanIter cmds dt ![p0.x, p0.y, p0.theta] n 2) := by
        show ekfPredictMean _ _ _ _ 1 = _
        simp [ekfPredictMean]
      have het : ekfMeanIter cmds dt ![p0.x, p0.y, p0.theta] (n + 1) 2 =
          wrapAngle (ekfMeanIter cmds dt ![p0.x, p0.y, p0.theta] n 2 +
            (cmds n).2 * dt) := by
        show ekfPredictMean _ _ _ _ 2 = _
        simp [ekfPredictMean]
      have harg : ekfMeanIter cmds dt ![p0.x, p0.y, p0.theta] n 2 +
          (cmds n).2 * dt =
          ((baselineIter cmds dt p0 n).theta + (cmds n).2 * dt) + 2 * π * k := by
        rw [hk]; ring
      obtain ⟨m, hm⟩ := wrapAngle_eq_add_int
        (ekfMeanIter cmds dt ![p0.x, p0.y, p0.theta] n 2 + (cmds n).2 * dt)
      refine ⟨?_, ?_, ?_, ?_, ⟨k + m, ?_⟩⟩
      · rw [hex, hbx, hx, hcos]
      · rw [hey, hby, hy, hsin]
      · rw [het, hbt, cos_wrapAngle, harg]
        have : ((baselineIter cmds dt p0 n).theta + (cmds n).2 * dt) +
            2 * π * k =
            ((baselineIter cmds dt p0 n).theta + (cmds n).2 * dt) +
              k * (2 * π) := by ring
        rw [this, Real.cos_add_int_mul_two_pi]
      · rw [het, hbt, sin_wrapAngle, harg]
        have : ((baselineIter cmds dt p0 n).theta + (cmds n).2 * dt) +
            2 * π * k =
            ((baselineIter cmds dt p0 n).theta + (cmds n).2 * dt) +
              k * (2 * π) := by ring
        rw [this, Real.sin_add_int_mul_two_pi]
      · rw [het, hm, harg, hbt]
        push_cast
        ring

/- ## Claim C7: scenario A of the trajectory generator -/

/-- Claim C7 counterexample: with total_time = 10 and dt = 0.1 the last of
the 100 samples sits at x = 4.95, not 5: x never reaches 5 on the sample
grid (the sample at t = 10 is excluded by np.arange). -/
theorem scenarioA_endpoint :
    (generateRectangleTrajectory 10 0.1).length = 100 ∧
    (generateRectangleTrajectory 10 0.1).get? 99 =
      some ⟨4.95, 0, 0⟩ ∧
    (4.95 : ℝ) ≠ 5 := by
  have hceil : ⌈(10 : ℝ) / 0.1⌉₊ = 100 := by
    norm_num
  refine ⟨?_, ?_, by norm_num⟩
  · simp [generateRectangleTrajectory, timesList, hceil]
  · unfold generateRectangleTrajectory timesList
    rw [hceil, List.get?_map, List.get?_map, List.get?_range (by norm_num)]
    simp only [Option.map_some']
    have hmod : realMod ((99 : ℕ) * 0.1) 72 = 9.9 := by
      unfold realMod
      have : ((99 : ℕ) * 0.1 : ℝ) / 72 = 0.1375 := by norm_num
      rw [this]
      have hf : ⌊(0.1375 : ℝ)⌋ = 0 := by
        apply Int.floor_eq_zero_iff.mpr
        constructor <;> norm_num
      rw [hf]
      norm_num
    unfold rectPoseAt
    rw [hmod]
    rw [if_pos (by norm_num)]
    have : (9.9 : ℝ) / 20 * 10 = 4.95 := by norm_num
    rw [this]

/-- Claim C7 (amended): with total_time = 10 and dt = 0.1 the generator
produces exactly 100 samples, and the k-th sample is the pose
(0.05 * k, 0, 0): y and θ are identically zero and x increases linearly
by 0.05 per sample, from 0 at the first sample to 4.95 at the last
(approaching but never reaching 5). -/
theorem scenarioA_trajectory :
    (generateRectangleTrajectory 10 0.1).length = 100 ∧
    ∀ k : ℕ, k < 100 →
      (generateRectangleTrajectory 10 0.1).get? k =
        some ⟨(k : ℝ) * 0.05, 0, 0⟩ := by
  have hceil : ⌈(10 : ℝ) / 0.1⌉₊ = 100 := by
    norm_num
  constructor
  · simp [generateRectangleTrajectory, timesList, hceil]
  · intro k hk
    have hkr : (k : ℝ) < 100 := by exact_mod_cast hk
    have hk0 : (0 : ℝ) ≤ (k : ℝ) := Nat.cast_nonneg k
    unfold generateRectangleTrajectory timesList
    rw [hceil, List.get?_map, List.get?_map, List.get?_range hk]
    simp only [Option.map_some']
    have hmod : realMod ((k : ℕ) * 0.1) 72 = (k : ℝ) * 0.1 := by
      unfold realMod
      have hf : ⌊((k : ℝ) * 0.1 / 72)⌋ = 0 := by
        apply Int.floor_eq_zero_iff.mpr
        constructor
        · positivity
        · show (k : ℝ) * 0.1 / 72 < 1
          nlinarith
      rw [hf]
      norm_num
    unfold rectPoseAt
    rw [hmod]
    rw [if_pos (by nlinarith)]
    have : (k : ℝ) * 0.1 / 20 * 10 = (k : ℝ) * 0.05 := by ring
    rw [this]

theorem scenarioA_trajectory_witness :
    (generateRectangleTrajectory 10 0.1).get? 50 =
      some ⟨(50 : ℝ) * 0.05, 0, 0⟩ :=
  scenarioA_trajectory.2 50 (by norm_num)

/- ## Claim C4: recoverable skips in the sequential EKF update -/

/-- Claim C4: the EKF update folds over the measurements in ascending
landmark order, and a landmark whose predicted range is at or below the
singularity threshold 0.1, or whose innovation covariance has condition
number at or above 1e12, contributes a pass-through fold step: the mean
and covariance are unchanged and processing continues with the next
landmark, with no error surfaced. -/
theorem ekfUpdate_skip (R : Mat2) (lm m : ℝ × ℝ) (mu : Vec3) (P : Mat3)
    (lms ms : List (ℝ × ℝ))
    (h : predRange lm mu ≤ 0.1 ∨
      (1e12 : ℝ) ≤ cond2 (innovCov lm mu P R)) :
    ekfUpdateStep R (mu, P) (m, lm) = (mu, P) ∧
    ekfUpdate R (lm :: lms) (m :: ms) (mu, P) =
      ekfUpdate R lms ms (mu, P) := by
  have hstep : ekfUpdateStep R (mu, P) (m, lm) = (mu, P) := by
    unfold ekfUpdateStep
    rcases h with h | h
    · rw [if_neg (by simp only [not_lt]; exact h)]
    · split_ifs with h1 h2
      · exact absurd h2 (by simp only [not_lt]; exact h)
      · rfl
      · rfl
  refine ⟨hstep, ?_⟩
  unfold ekfUpdate
  rw [List.zip_cons_cons, List.foldl_cons, hstep]

theorem ekfUpdate_skip_witness :
    ekfUpdateStep (Rmat 0.1 0.02) (![2, 2, 0], 1) ((0, 0), (2, 2)) =
      (![2, 2, 0], 1) :=
  (ekfUpdate_skip (Rmat 0.1 0.02) (2, 2) (0, 0) ![2, 2, 0] 1 [] []
    (Or.inl (by simp [predRange]; norm_num))).1

/- ## Claim C2: covariance symmetry and eigenvalue floor -/

theorem spectrum_bddBelow (A : Mat3) : BddBelow (spectrum ℝ A) :=
  (Matrix.finite_spectrum A).bddBelow

theorem minEig_le {A : Mat3} {a : ℝ} (ha : a ∈ spectrum ℝ A) : minEig A ≤ a :=
  csInf_le (spectrum_bddBelow A) ha

theorem symmetrize_isSymm (A : Mat3) : (symmetrize A).IsSymm := by
  unfold symmetrize Matrix.IsSymm
  rw [Matrix.transpose_smul, Matrix.transpose_add, Matrix.transpose_transpose,
    add_comm]

theorem floorEig_isSymm {A : Mat3} (h : A.IsSymm) : (floorEig A).IsSymm := by
  unfold floorEig
  split_ifs with hm
  · unfold Matrix.IsSymm at h ⊢
    rw [Matrix.transpose_add, Matrix.transpose_smul, Matrix.transpose_one, h]
  · exact h

theorem spectrum_add_smul_one (A : Mat3) (c : ℝ) :
    spectrum ℝ (A + c • (1 : Mat3)) = (fun x => c + x) '' spectrum ℝ A := by
  have h1 : A + c • (1 : Mat3) = algebraMap ℝ Mat3 c + A := by
    rw [Algebra.algebraMap_eq_smul_one]
    exact add_comm _ _
  rw [h1, ← spectrum.singleton_add_eq, Set.singleton_add]

/-- After flooring, every real eigenvalue is at least 1e-6. -/
theorem floorEig_spec (A : Mat3) :
    ∀ a ∈ spectrum ℝ (floorEig A), (1e-6 : ℝ) ≤ a := by
  intro a ha
  unfold floorEig at ha
  split_ifs at ha with hm
  · rw [spectrum_add_smul_one] at ha
    obtain ⟨b, hb, rfl⟩ := ha
    have hble := minEig_le hb
    simp only []
    linarith
  · push_neg at hm
    have := minEig_le ha
    linarith

/-- The covariance produced by a successful landmark update. -/
theorem ekfUpdateApply_snd (R : Mat2) (st : Vec3 × Mat3)
    (p : (ℝ × ℝ) × (ℝ × ℝ)) :
    (ekfUpdateApply R st p).2 =
      floorEig (symmetrize
        ((1 - st.2 * (measJacobian p.2 st.1)ᵀ *
            (innovCov p.2 st.1 st.2 R)⁻¹ * measJacobian p.2 st.1) * st.2)) :=
  rfl

theorem ekfUpdateStep_cov (R : Mat2) (st : Vec3 × Mat3)
    (p : (ℝ × ℝ) × (ℝ × ℝ)) (hsym : st.2.IsSymm)
    (hspec : ∀ a ∈ spectrum ℝ st.2, -(1e-6 : ℝ) ≤ a) :
    (ekfUpdateStep R st p).2.IsSymm ∧
      ∀ a ∈ spectrum ℝ (ekfUpdateStep R st p).2, -(1e-6 : ℝ) ≤ a := by
  unfold ekfUpdateStep
  split_ifs with h1 h2
  · constructor
    · rw [ekfUpdateApply_snd]
      exact floorEig_isSymm (symmetrize_isSymm _)
    · intro a ha
      rw [ekfUpdateApply_snd] at ha
      have := floorEig_spec _ a ha
      linarith
  · exact ⟨hsym, hspec⟩
  · exact ⟨hsym, hspec⟩

theorem ekfUpdate_cov_aux (R : Mat2) (l : List ((ℝ × ℝ) × (ℝ × ℝ)))
    (st : Vec3 × Mat3) (hsym : st.2.IsSymm)
    (hspec : ∀ a ∈ spectrum ℝ st.2, -(1e-6 : ℝ) ≤ a) :
    (l.foldl (ekfUpdateStep R) st).2.IsSymm ∧
      ∀ a ∈ spectrum ℝ (l.foldl (ekfUpdateStep R) st).2, -(1e-6 : ℝ) ≤ a := by
  induction l generalizing st with
  | nil => exact ⟨hsym, hspec⟩
  | cons p l ih =>
      rw [List.foldl_cons]
      obtain ⟨h1, h2⟩ := ekfUpdateStep_cov R st p hsym hspec
      exact ih _ h1 h2

/-- Claim C2: provided the incoming covariance is symmetric with no real
eigenvalue below -1e-6, the covariance after a full EKF update pass is
again symmetric with no real eigenvalue below -1e-6; moreover every
landmark that actually updates (both guards pass) leaves a symmetric
covariance all of whose real eigenvalues are at least +1e-6, because the
update symmetrizes and then floors the minimum eigenvalue. -/
theorem ekfUpdate_cov_psd (R : Mat2) (lms ms : List (ℝ × ℝ)) (mu : Vec3)
    (P : Mat3) (hsym : P.IsSymm)
    (hspec : ∀ a ∈ spectrum ℝ P, -(1e-6 : ℝ) ≤ a) :
    (ekfUpdate R lms ms (mu, P)).2.IsSymm ∧
    (∀ a ∈ spectrum ℝ (ekfUpdate R lms ms (mu, P)).2, -(1e-6 : ℝ) ≤ a) ∧
    (∀ (st : Vec3 × Mat3) (p : (ℝ × ℝ) × (ℝ × ℝ)),
      0.1 < predRange p.2 st.1 →
      cond2 (innovCov p.2 st.1 st.2 R) < 1e12 →
      (ekfUpdateStep R st p).2.IsSymm ∧
        ∀ a ∈ spectrum ℝ (ekfUpdateStep R st p).2, (1e-6 : ℝ) ≤ a) := by
  obtain ⟨h1, h2⟩ := ekfUpdate_cov_aux R (ms.zip lms) (mu, P) hsym hspec
  refine ⟨h1, h2, ?_⟩
  intro st p hr hc
  have hstep : ekfUpdateStep R st p = ekfUpdateApply R st p := by
    unfold ekfUpdateStep
    rw [if_pos hr, if_pos hc]
  rw [hstep, ekfUpdateApply_snd]
  exact ⟨floorEig_isSymm (symmetrize_isSymm _), floorEig_spec _⟩

theorem ekfUpdate_cov_psd_witness :
    (ekfUpdate (Rmat 0.1 0.02) [(2, 2)] [(0, 0)] (![0, 0, 0], 1)).2.IsSymm :=
  (ekfUpdate_cov_psd (Rmat 0.1 0.02) [(2, 2)] [(0, 0)] ![0, 0, 0] 1
    Matrix.isSymm_one
    (by
      intro a ha
      rw [spectrum.one_eq, Set.mem_singleton_iff] at ha
      rw [ha]
      norm_num)).1

end

end WheelOdom
